import Mathlib

/-!
Shallow embedding of the Vulcan emulator core (`src/word.rs`, `src/memory.rs`,
`src/opcodes.rs`, `src/cpu.rs`, `src/display.rs`).

Modelling conventions:
* `Word` (Rust `struct Word(u32)` with the low-24-bit invariant) is `Fin 16777216`.
* `u8` is `Fin 256`.
* Rust operations that can panic (array indexing out of bounds, division or
  remainder by zero via `overflowing_div` / `Rem::rem` on `u32`) are modelled as
  `Option`-valued functions returning `none` where the Rust code panics.
* `u32` shift operations (`Shl`/`Shr`) take the shift count modulo 32, the
  two's-complement wrapping behaviour of a release build.
-/

/-- A 24-bit machine word, `struct Word(u32)` whose constructor
(`From<u32> for Word`) masks with `0xffffff`. -/
abbrev Word := Fin 16777216

/-- Construction of a `Word` from an unsigned value: `From<u32> for Word`
masks with `0xffffff`, i.e. reduces modulo `2^24`. -/
def Word.ofNat (n : Nat) : Word := ⟨n % 16777216, Nat.mod_lt _ (by decide)⟩

/-- Signed reading of a word, `impl From<Word> for i32`: if bit 23 is set the
value is `-(((w ^ 0xffffff) + 1))`, otherwise the value itself. -/
def Word.toInt (w : Word) : Int :=
  if w.val.testBit 23 then -((((w.val ^^^ 16777215) + 1 : Nat)) : Int) else (w.val : Int)

/-- Word plus `i32` (`ops!(i32)`): both sides are converted to `i32`, added with
`overflowing_add` (wrap modulo `2^32`), the result is cast to `u32` (its
two's-complement bit pattern, i.e. the representative of the sum modulo `2^32`)
and masked back to 24 bits. -/
def Word.addI32 (w : Word) (r : Int) : Word :=
  Word.ofNat (((Word.toInt w + r) % 4294967296).toNat)

/-- Word minus `i32` (`ops!(i32)`), via `overflowing_sub` as in `Word.addI32`. -/
def Word.subI32 (w : Word) (r : Int) : Word :=
  Word.ofNat (((Word.toInt w - r) % 4294967296).toNat)

/-- Addition of two words (`ops!(Word, u32)`): both are converted to `u32`,
added with `overflowing_add`, and the result masked to 24 bits.  The `u32` wrap
cannot trigger (the sum is below `2^25`), so the mask alone is faithful. -/
def Word.add (a b : Word) : Word := Word.ofNat (a.val + b.val)

/-- Subtraction (`ops!(Word, u32)`): `overflowing_sub` on `u32` wraps modulo
`2^32`; masked to 24 bits this is `(2^24 + a - b) % 2^24`. -/
def Word.sub (a b : Word) : Word := Word.ofNat (16777216 + a.val - b.val)

/-- Multiplication (`ops!(Word, u32)`): `overflowing_mul` wraps modulo `2^32`,
then the 24-bit mask is applied; since `2^24` divides `2^32` this equals the
product modulo `2^24`. -/
def Word.mul (a b : Word) : Word := Word.ofNat (a.val * b.val)

/-- Unsigned division (`ops!(Word, u32)`): `u32::overflowing_div` panics when
the divisor is zero, modelled as `none`. -/
def Word.div (a b : Word) : Option Word :=
  if b.val = 0 then none else some (Word.ofNat (a.val / b.val))

/-- Unsigned remainder (`ops!(Word, u32)`): `u32::rem` panics when the divisor
is zero, modelled as `none`. -/
def Word.rem (a b : Word) : Option Word :=
  if b.val = 0 then none else some (Word.ofNat (a.val % b.val))

/-- Bitwise and (`ops!(Word, u32)`). -/
def Word.and (a b : Word) : Word := Word.ofNat (a.val &&& b.val)

/-- Bitwise or (`ops!(Word, u32)`). -/
def Word.or (a b : Word) : Word := Word.ofNat (a.val ||| b.val)

/-- Bitwise xor (`ops!(Word, u32)`). -/
def Word.xor (a b : Word) : Word := Word.ofNat (a.val ^^^ b.val)

/-- Left shift (`ops!(Word, u32)`): the `u32` shift count wraps modulo 32
(release-profile semantics), the result is masked to 24 bits. -/
def Word.shl (a b : Word) : Word := Word.ofNat (a.val <<< (b.val % 32))

/-- Right shift (`ops!(Word, u32)`), with the shift count modulo 32 as in
`Word.shl`. -/
def Word.shr (a b : Word) : Word := Word.ofNat (a.val >>> (b.val % 32))

/-- Boolean to word, `impl From<bool> for Word`: `true` is 1, `false` is 0. -/
def Word.ofBool (b : Bool) : Word := if b then Word.ofNat 1 else Word.ofNat 0

/-- Little-endian bytes of a word, `Word::to_bytes` (the fourth `u32` byte is
zero by the 24-bit invariant and is dropped). -/
def Word.toBytes (w : Word) : Fin 256 × Fin 256 × Fin 256 :=
  (⟨w.val % 256, Nat.mod_lt _ (by decide)⟩,
   ⟨w.val / 256 % 256, Nat.mod_lt _ (by decide)⟩,
   ⟨w.val / 65536 % 256, Nat.mod_lt _ (by decide)⟩)

/-- Word from three little-endian bytes, `Word::from_bytes` via
`u32::from_le_bytes` with a zero high byte. -/
def Word.fromBytes (a b c : Fin 256) : Word :=
  Word.ofNat (a.val + 256 * b.val + 65536 * c.val)

/-- Word plus `usize` (`ops!(usize)`, used by `peek_slice`/`poke_slice` for
`addr + i`): the `usize` is cast to `u32` (modulo `2^32`), added with wrap
modulo `2^32`, and the result masked to 24 bits. -/
def Word.addUsize (w : Word) (n : Nat) : Word :=
  Word.ofNat ((w.val + n % 4294967296) % 4294967296)

/-- Word plus `u8` (`ops!(u8)`, used by the paletted rasterizers for
`reg.palette + color_idx`): BOTH operands convert to `u8` — the word
contributes only its low byte (`convert_via!(u8 => u32)` truncates) — the
addition wraps modulo 256, and the sum converts back into a `Word`, so the
result is always below 256. -/
def Word.addU8 (w : Word) (b : Nat) : Word :=
  Word.ofNat ((w.val % 256 + b % 256) % 256)

/-- Conversion `usize::from(Word)` (`convert_via!(usize => u32)`): the FULL
24-bit value; nothing reduces it modulo the memory size. -/
def Word.toUsize (w : Word) : Nat := w.val

/-- Amount of memory, `MEM_SIZE = 128 * 1024`. -/
def MEM_SIZE : Nat := 131072

/-- Main memory, `struct Memory([u8; MEM_SIZE])`, as a byte store indexed by
physical offset.  Only offsets below `MEM_SIZE` are ever readable or writable;
`Index`/`IndexMut` with a larger `usize::from(word)` panics in Rust. -/
structure Memory where
  data : Nat → Fin 256

/-- Zeroed memory, `impl Default for Memory`. -/
def Memory.default : Memory := ⟨fun _ => 0⟩

/-- Read a byte, `Memory::peek` = `self[addr]` via `Index<Word>`: the index is
`usize::from(addr)` (the full 24-bit value) and the access panics (`none`) when
it is not below `MEM_SIZE`. -/
def Memory.peek (m : Memory) (addr : Word) : Option (Fin 256) :=
  if Word.toUsize addr < MEM_SIZE then some (m.data (Word.toUsize addr)) else none

/-- Write a byte, `Memory::poke` = `self[addr] = val` via `IndexMut<Word>`,
panicking (`none`) outside the array exactly as `Memory.peek`. -/
def Memory.poke (m : Memory) (addr : Word) (val : Fin 256) : Option Memory :=
  if Word.toUsize addr < MEM_SIZE then
    some ⟨fun j => if j = Word.toUsize addr then val else m.data j⟩
  else none

/-- Read three little-endian bytes, `PeekPokeExt::peek24` via `peek_slice`
(the slice loop reads `addr + i` with the `usize` addition). -/
def Memory.peek24 (m : Memory) (addr : Word) : Option Word := do
  let b0 ← m.peek (Word.addUsize addr 0)
  let b1 ← m.peek (Word.addUsize addr 1)
  let b2 ← m.peek (Word.addUsize addr 2)
  pure (Word.fromBytes b0 b1 b2)

/-- Write a word as three little-endian bytes, `PeekPokeExt::poke24` via
`poke_slice` over `val.to_bytes()`. -/
def Memory.poke24 (m : Memory) (addr : Word) (val : Word) : Option Memory := do
  let m0 ← m.poke (Word.addUsize addr 0) (Word.toBytes val).1
  let m1 ← m0.poke (Word.addUsize addr 1) (Word.toBytes val).2.1
  m1.poke (Word.addUsize addr 2) (Word.toBytes val).2.2

/-- Direct array store `mem.0[i as usize] = v` used by `From<R: Rng> for
Memory`; the loop index is always in bounds there. -/
def Memory.writeByte (m : Memory) (i : Nat) (v : Fin 256) : Memory :=
  ⟨fun j => if j = i then v else m.data j⟩

/-- Memory filled from a byte source, `impl<R: Rng> From<R> for Memory`:
starting from the zeroed default, the loop writes `rng.gen()` at every offset
`i` in `0..(MEM_SIZE - 1)`; `rng i` is the i-th byte drawn from the source. -/
def Memory.fromRng (rng : Nat → Fin 256) : Memory :=
  (List.range (MEM_SIZE - 1)).foldl (fun m i => m.writeByte i (rng i)) Memory.default

/-- Result of a successful three-byte store (`poke24` in bounds): the three
updated cells on top of the old contents. -/
def Memory.write3 (m : Memory) (a : Nat) (b0 b1 b2 : Fin 256) : Memory :=
  ⟨fun j => if j = a + 2 then b2 else if j = a + 1 then b1 else if j = a then b0 else m.data j⟩

/-- The opcode enumeration of `src/opcodes.rs`. -/
inductive Opcode where
  | Nop | Add | Sub | Mul | Div | Mod | Rand | And | Or | Xor
  | Not | Gt | Lt | Agt | Alt | Lshift | Rshift | Arshift
  | Pop | Dup | Swap | Pick | Rot | Jmp | Jmpr | Call | Ret
  | Brz | Brnz | Hlt | Load | Loadw | Store | Storew
  | Inton | Intoff | Setiv | Sdp | Setsdp | Pushr | Popr | Peekr | Debug
deriving DecidableEq, BEq

/-- Decode error, `struct InvalidOpcode(pub u8)` carrying the offending
6-bit opcode field. -/
structure InvalidOpcode where
  byte : Nat
deriving DecidableEq

/-- Decoding of the 6-bit opcode field, `TryFrom<u8> for Opcode`: the dense
table 0..42, and `InvalidOpcode(other)` for anything else. -/
def Opcode.tryFrom (value : Nat) : Except InvalidOpcode Opcode :=
  match value with
  | 0 => .ok .Nop
  | 1 => .ok .Add
  | 2 => .ok .Sub
  | 3 => .ok .Mul
  | 4 => .ok .Div
  | 5 => .ok .Mod
  | 6 => .ok .Rand
  | 7 => .ok .And
  | 8 => .ok .Or
  | 9 => .ok .Xor
  | 10 => .ok .Not
  | 11 => .ok .Gt
  | 12 => .ok .Lt
  | 13 => .ok .Agt
  | 14 => .ok .Alt
  | 15 => .ok .Lshift
  | 16 => .ok .Rshift
  | 17 => .ok .Arshift
  | 18 => .ok .Pop
  | 19 => .ok .Dup
  | 20 => .ok .Swap
  | 21 => .ok .Pick
  | 22 => .ok .Rot
  | 23 => .ok .Jmp
  | 24 => .ok .Jmpr
  | 25 => .ok .Call
  | 26 => .ok .Ret
  | 27 => .ok .Brz
  | 28 => .ok .Brnz
  | 29 => .ok .Hlt
  | 30 => .ok .Load
  | 31 => .ok .Loadw
  | 32 => .ok .Store
  | 33 => .ok .Storew
  | 34 => .ok .Inton
  | 35 => .ok .Intoff
  | 36 => .ok .Setiv
  | 37 => .ok .Sdp
  | 38 => .ok .Setsdp
  | 39 => .ok .Pushr
  | 40 => .ok .Popr
  | 41 => .ok .Peekr
  | 42 => .ok .Debug
  | other => .error ⟨other⟩

/-- Partition into binary opcodes, `Opcode::is_binary`: everything except the
listed non-binary ones. -/
def Opcode.isBinary (o : Opcode) : Bool :=
  o != .Nop && o != .Not && o != .Rand && o != .Pop && o != .Dup && o != .Pick &&
  o != .Rot && o != .Jmp && o != .Jmpr && o != .Call && o != .Ret && o != .Hlt &&
  o != .Load && o != .Loadw && o != .Inton && o != .Intoff && o != .Setiv &&
  o != .Sdp && o != .Pushr && o != .Popr && o != .Peekr && o != .Debug

/-- Decoded instruction, `struct Instruction { opcode, arg, length }`. -/
structure Instruction where
  opcode : Opcode
  arg : Option Word
  length : Nat
deriving DecidableEq

/-- CPU state, `struct CPU` of `src/cpu.rs`. -/
structure CPU where
  memory : Memory
  pc : Word
  dp : Word
  sp : Word
  iv : Word
  int_enabled : Bool
  halted : Bool

/-- Power-on state, `CPU::new` (equal to the register block after `reset`). -/
def CPU.new (memory : Memory) : CPU :=
  { memory := memory
    pc := Word.ofNat 1024
    dp := Word.ofNat 256
    sp := Word.ofNat 1024
    iv := Word.ofNat 1024
    int_enabled := false
    halted := true }

/-- Data-stack push, `CPU::push_data`: `poke24` at `dp`, then `dp += 3`. -/
def CPU.pushData (cpu : CPU) (word : Word) : Option CPU :=
  (cpu.memory.poke24 cpu.dp word).map fun m =>
    { cpu with memory := m, dp := Word.addI32 cpu.dp 3 }

/-- Call-stack push, `CPU::push_call`: `sp -= 3`, then `poke24` at `sp`. -/
def CPU.pushCall (cpu : CPU) (word : Word) : Option CPU :=
  (cpu.memory.poke24 (Word.subI32 cpu.sp 3) word).map fun m =>
    { cpu with memory := m, sp := Word.subI32 cpu.sp 3 }

/-- Data-stack pop, `CPU::pop_data`: `dp -= 3`, then `peek24` at `dp`. -/
def CPU.popData (cpu : CPU) : Option (Word × CPU) :=
  (cpu.memory.peek24 (Word.subI32 cpu.dp 3)).map fun w =>
    (w, { cpu with dp := Word.subI32 cpu.dp 3 })

/-- Call-stack pop, `CPU::pop_call`: `peek24` at `sp`, then `sp += 3`. -/
def CPU.popCall (cpu : CPU) : Option (Word × CPU) :=
  (cpu.memory.peek24 cpu.sp).map fun w => (w, { cpu with sp := Word.addI32 cpu.sp 3 })

/-- Call-stack top, `CPU::peek_call`. -/
def CPU.peekCall (cpu : CPU) : Option Word := cpu.memory.peek24 cpu.sp

/-- Data-stack top, `CPU::peek_data`: `peek24` at `dp - 3`. -/
def CPU.peekData (cpu : CPU) : Option Word := cpu.memory.peek24 (Word.subI32 cpu.dp 3)

/-- Immediate-argument accumulation loop of `CPU::fetch`: for `n` in
`0..arg_length`, read `peek(pc + (n + 1))` and add it shifted left by `8 * n`. -/
def CPU.argBytes (cpu : CPU) : Nat → Option Nat
  | 0 => some 0
  | n + 1 => do
      let rest ← CPU.argBytes cpu n
      let b ← cpu.memory.peek (Word.addI32 cpu.pc ((n : Int) + 1))
      pure (rest + (b.val <<< (8 * n)))

/-- Instruction fetch, `CPU::fetch`: read the lead byte at `pc`, decode the
high 6 bits, read the `byte & 3` little-endian argument bytes.  The function
takes the CPU immutably (`&self` in the source), so no register or memory
changes; `none` models a panicking memory access. -/
def CPU.fetch (cpu : CPU) : Option (Except InvalidOpcode Instruction) := do
  let instruction ← cpu.memory.peek cpu.pc
  match Opcode.tryFrom (instruction.val >>> 2) with
  | .error e => pure (.error e)
  | .ok opcode =>
    let argLength := instruction.val &&& 3
    if argLength = 0 then
      pure (.ok ⟨opcode, none, 1⟩)
    else do
      let arg ← CPU.argBytes cpu argLength
      pure (.ok ⟨opcode, some (Word.ofNat arg), argLength + 1⟩)

/-- Bit pattern (as an unsigned 32-bit value) of `i32::from(w)`: when bit 23 is
set the signed value is negative and its two's-complement pattern is the word
with the high eight bits set (`w + 0xff000000`, a disjoint bitwise or). -/
def Word.sext32 (w : Word) : Nat :=
  if w.val.testBit 23 then w.val ||| 4278190080 else w.val

/-- One pass of the `Arshift` loop, `shifted = shifted >> 1 | 0x800000`.  Both
operations route through `i32` (`ops!(i32)`): on the 32-bit two's-complement
pattern the arithmetic shift keeps the sign bit, the or sets bit 23, and the
conversion back to `Word` keeps the low 24 bits. -/
def Word.arshiftStep (w : Word) : Word :=
  Word.ofNat (((Word.sext32 w >>> 1) ||| (Word.sext32 w &&& 2147483648)) ||| 8388608)

/-- The `for _ in 0..count` loop of `Arshift`, applying `Word.arshiftStep`
`count` times. -/
def Word.arshiftLoop : Nat → Word → Word
  | 0, w => w
  | n + 1, w => Word.arshiftLoop n (Word.arshiftStep w)

/-- The fall-through `self.pc + instruction.length as i32` at the end of
`CPU::execute`, packaged with the final CPU state.  (The `pc` register itself
is never written inside `execute`; the new program counter is returned.) -/
def CPU.thenAdvance (length : Nat) (oc : Option CPU) : Option (CPU × Word) :=
  oc.map fun c => (c, Word.addI32 c.pc (length : Int))

/-- Instruction execution, `CPU::execute`.  Mirrors the source arm for arm; the
returned `Word` is the next program counter (the Rust function's return value),
and `none` models a panic (out-of-range memory access, division by zero, or the
`unreachable!()` arm). -/
def CPU.execute (cpu : CPU) (instruction : Instruction) : Option (CPU × Word) := do
  let cpu ← match instruction.arg with
    | some arg => CPU.pushData cpu arg
    | none => pure cpu
  if Opcode.isBinary instruction.opcode then do
    let (x, cpu) ← CPU.popData cpu
    let (y, cpu) ← CPU.popData cpu
    match instruction.opcode with
    | .Add => CPU.thenAdvance instruction.length (CPU.pushData cpu (Word.add x y))
    | .Sub => CPU.thenAdvance instruction.length (CPU.pushData cpu (Word.sub y x))
    | .Mul => CPU.thenAdvance instruction.length (CPU.pushData cpu (Word.mul y x))
    | .Div => CPU.thenAdvance instruction.length ((Word.div y x).bind (CPU.pushData cpu))
    | .Mod => CPU.thenAdvance instruction.length ((Word.rem y x).bind (CPU.pushData cpu))
    | .And => CPU.thenAdvance instruction.length (CPU.pushData cpu (Word.and y x))
    | .Or => CPU.thenAdvance instruction.length (CPU.pushData cpu (Word.or y x))
    | .Xor => CPU.thenAdvance instruction.length (CPU.pushData cpu (Word.xor y x))
    | .Gt => CPU.thenAdvance instruction.length (CPU.pushData cpu (Word.ofBool (decide (x.val < y.val))))
    | .Lt => CPU.thenAdvance instruction.length (CPU.pushData cpu (Word.ofBool (decide (y.val < x.val))))
    | .Agt => CPU.thenAdvance instruction.length (CPU.pushData cpu (Word.ofBool (decide (Word.toInt x < Word.toInt y))))
    | .Alt => CPU.thenAdvance instruction.length (CPU.pushData cpu (Word.ofBool (decide (Word.toInt y < Word.toInt x))))
    | .Lshift => CPU.thenAdvance instruction.length (CPU.pushData cpu (Word.shl y x))
    | .Rshift => CPU.thenAdvance instruction.length (CPU.pushData cpu (Word.shr y x))
    | .Arshift =>
        if y.val.testBit 23 then
          CPU.thenAdvance instruction.length (CPU.pushData cpu (Word.arshiftLoop (min x.val 24) y))
        else
          CPU.thenAdvance instruction.length (CPU.pushData cpu (Word.shr y x))
    | .Swap => CPU.thenAdvance instruction.length ((CPU.pushData cpu x).bind fun c => CPU.pushData c y)
    | .Store => CPU.thenAdvance instruction.length ((cpu.memory.poke x (Word.toBytes y).1).map fun m => { cpu with memory := m })
    | .Storew => CPU.thenAdvance instruction.length ((cpu.memory.poke24 x y).map fun m => { cpu with memory := m })
    | .Setsdp => CPU.thenAdvance instruction.length (some { cpu with dp := x, sp := y })
    | .Brz =>
        if y.val = 0 then pure (cpu, Word.addI32 cpu.pc (Word.toInt x))
        else CPU.thenAdvance instruction.length (some cpu)
    | .Brnz =>
        if y.val ≠ 0 then pure (cpu, Word.addI32 cpu.pc (Word.toInt x))
        else CPU.thenAdvance instruction.length (some cpu)
    | _ => none
  else
    match instruction.opcode with
    | .Nop => CPU.thenAdvance instruction.length (some cpu)
    | .Rand => CPU.thenAdvance instruction.length (some cpu)
    | .Not => do
        let (x, cpu) ← CPU.popData cpu
        CPU.thenAdvance instruction.length (CPU.pushData cpu (Word.ofBool (decide (x.val = 0))))
    | .Pop => do
        let (_, cpu) ← CPU.popData cpu
        CPU.thenAdvance instruction.length (some cpu)
    | .Dup => do
        let w ← CPU.peekData cpu
        CPU.thenAdvance instruction.length (CPU.pushData cpu w)
    | .Pick => do
        let (index, cpu) ← CPU.popData cpu
        let v ← cpu.memory.peek24 (Word.subI32 cpu.dp ((Word.toInt index + 1) * 3))
        CPU.thenAdvance instruction.length (CPU.pushData cpu v)
    | .Rot => do
        let (x, cpu) ← CPU.popData cpu
        let (y, cpu) ← CPU.popData cpu
        let (z, cpu) ← CPU.popData cpu
        CPU.thenAdvance instruction.length ((CPU.pushData cpu y).bind fun c => (CPU.pushData c x).bind fun c => CPU.pushData c z)
    | .Jmp => do
        let (x, cpu) ← CPU.popData cpu
        pure (cpu, x)
    | .Jmpr => do
        let (x, cpu) ← CPU.popData cpu
        pure (cpu, Word.addI32 cpu.pc (Word.toInt x))
    | .Call => do
        let (x, cpu) ← CPU.popData cpu
        let cpu2 ← CPU.pushCall cpu (Word.addI32 cpu.pc (instruction.length : Int))
        pure (cpu2, x)
    | .Ret => do
        let (x, cpu) ← CPU.popCall cpu
        pure (cpu, x)
    | .Hlt => CPU.thenAdvance instruction.length (some { cpu with halted := true })
    | .Load => do
        let (x, cpu) ← CPU.popData cpu
        let b ← cpu.memory.peek x
        CPU.thenAdvance instruction.length (CPU.pushData cpu (Word.ofNat b.val))
    | .Loadw => do
        let (x, cpu) ← CPU.popData cpu
        let w ← cpu.memory.peek24 x
        CPU.thenAdvance instruction.length (CPU.pushData cpu w)
    | .Inton => CPU.thenAdvance instruction.length (some { cpu with int_enabled := true })
    | .Intoff => CPU.thenAdvance instruction.length (some { cpu with int_enabled := false })
    | .Setiv => do
        let (x, cpu) ← CPU.popData cpu
        CPU.thenAdvance instruction.length (some { cpu with iv := x })
    | .Sdp => do
        let c1 ← CPU.pushData cpu cpu.sp
        CPU.thenAdvance instruction.length (CPU.pushData c1 (Word.addI32 c1.dp 3))
    | .Pushr => do
        let (x, cpu) ← CPU.popData cpu
        CPU.thenAdvance instruction.length (CPU.pushCall cpu x)
    | .Popr => do
        let (r, cpu) ← CPU.popCall cpu
        CPU.thenAdvance instruction.length (CPU.pushData cpu r)
    | .Peekr => do
        let r ← CPU.peekCall cpu
        CPU.thenAdvance instruction.length (CPU.pushData cpu r)
    | .Debug => CPU.thenAdvance instruction.length (some cpu)
    | _ => CPU.thenAdvance instruction.length (some cpu)


/-! ### Display rasterizer (`src/display.rs`) -/

/-- Display register block, `struct DisplayRegisters`. -/
structure DisplayRegisters where
  mode : Fin 256
  screen : Word
  palette : Word
  font : Word
  height : Word
  width : Word
  row_offset : Word
  col_offset : Word

/-- Reading of the register block, `read_display_registers`: one byte at
`start`, then seven 24-bit words at offsets 1, 4, 7, 10, 13, 16, 19 (the
offsets are `i32` additions on `Word`). -/
def readDisplayRegisters (machine : Memory) (start : Word) : Option DisplayRegisters := do
  let mode ← machine.peek start
  let screen ← machine.peek24 (Word.addI32 start 1)
  let palette ← machine.peek24 (Word.addI32 start 4)
  let font ← machine.peek24 (Word.addI32 start 7)
  let height ← machine.peek24 (Word.addI32 start 10)
  let width ← machine.peek24 (Word.addI32 start 13)
  let row_offset ← machine.peek24 (Word.addI32 start 16)
  let col_offset ← machine.peek24 (Word.addI32 start 19)
  pure ⟨mode, screen, palette, font, height, width, row_offset, col_offset⟩

/-- Source byte address of a logical pixel, `to_byte_address`:
`((x + col_offset) % width) + ((y + row_offset % height) * width + screen)`.
The two `%` are `Word` remainders and panic (`none`) when `height` or `width`
is zero. -/
def toByteAddress (x y : Word) (reg : DisplayRegisters) : Option Word := do
  let r ← Word.rem reg.row_offset reg.height
  let rowStart := Word.add (Word.mul (Word.add y r) reg.width) reg.screen
  let c ← Word.rem (Word.add x reg.col_offset) reg.width
  pure (Word.add c rowStart)

/-- One frame byte quadruple (R, G, B, A).  Each rasterizer body computes the
four bytes written to `pixel[0..4]` for frame chunk `i`. -/
abbrev Pixel := Nat × Nat × Nat × Nat

/-- Pixel body of `draw_direct_high_gfx`. -/
def pixelDirectHighGfx (machine : Memory) (reg : DisplayRegisters) (i : Nat) : Option Pixel := do
  let displayRow := i / 640
  let displayCol := i % 640
  let addr ← toByteAddress (Word.ofNat (displayCol >>> 2)) (Word.ofNat (displayRow >>> 2)) reg
  let vb ← machine.peek addr
  pure ((vb.val >>> 5) <<< 5, ((vb.val >>> 2) &&& 7) <<< 5, ((vb.val &&& 3) <<< 1) <<< 5, 255)

/-- Pixel body of `draw_paletted_high_gfx`. -/
def pixelPalettedHighGfx (machine : Memory) (reg : DisplayRegisters) (i : Nat) :
    Option Pixel := do
  let displayRow := i / 640
  let displayCol := i % 640
  let addr ← toByteAddress (Word.ofNat (displayCol >>> 2)) (Word.ofNat (displayRow >>> 2)) reg
  let colorIdx ← machine.peek addr
  let color ← machine.peek (Word.addU8 reg.palette colorIdx.val)
  pure ((color.val >>> 5) <<< 5, ((color.val >>> 2) &&& 7) <<< 5,
    ((color.val &&& 3) <<< 1) <<< 5, 255)

/-- Pixel body of `draw_paletted_high_text`. -/
def pixelPalettedHighText (machine : Memory) (reg : DisplayRegisters) (i : Nat) :
    Option Pixel := do
  let displayRow := i / 640
  let displayCol := i % 640
  let addr ← toByteAddress (Word.ofNat (displayCol >>> 2)) (Word.ofNat (displayRow >>> 2)) reg
  let charIdx ← machine.peek addr
  let charRow := displayRow % 8
  let charCol := displayCol % 8
  let charByte ← machine.peek
    (Word.addUsize (Word.add reg.font (Word.ofNat (charIdx.val <<< 3))) charRow)
  let colorByte ← machine.peek (Word.add addr (Word.mul reg.width reg.height))
  let fgColor ← machine.peek (Word.addU8 reg.palette (colorByte.val &&& 15))
  let bgColor ← machine.peek (Word.addU8 reg.palette (colorByte.val >>> 4))
  if charByte.val &&& (1 <<< (7 - charCol)) ≠ 0 then
    pure ((fgColor.val >>> 5) <<< 5, ((fgColor.val >>> 2) &&& 7) <<< 5,
      ((fgColor.val &&& 3) <<< 1) <<< 5, 255)
  else
    pure ((bgColor.val >>> 5) <<< 5, ((bgColor.val >>> 2) &&& 7) <<< 5,
      ((bgColor.val &&& 3) <<< 1) <<< 5, 255)

/-- Pixel body of `draw_direct_high_text`. -/
def pixelDirectHighText (machine : Memory) (reg : DisplayRegisters) (i : Nat) :
    Option Pixel := do
  let displayRow := i / 640
  let displayCol := i % 640
  let addr ← toByteAddress (Word.ofNat (displayCol >>> 2)) (Word.ofNat (displayRow >>> 2)) reg
  let charIdx ← machine.peek addr
  let charRow := displayRow % 8
  let charCol := displayCol % 8
  let charByte ← machine.peek
    (Word.addUsize (Word.add reg.font (Word.ofNat (charIdx.val <<< 3))) charRow)
  let color ← machine.peek (Word.add addr (Word.mul reg.width reg.height))
  if charByte.val &&& (1 <<< (7 - charCol)) ≠ 0 then
    pure ((color.val >>> 5) <<< 5, ((color.val >>> 2) &&& 7) <<< 5,
      ((color.val &&& 3) <<< 1) <<< 5, 255)
  else
    pure (0, 0, 0, 255)

/-- Pixel body of `draw_direct_low_text` (`(row / 2) % 8`, `(col / 2) % 8`
font sampling). -/
def pixelDirectLowText (machine : Memory) (reg : DisplayRegisters) (i : Nat) :
    Option Pixel := do
  let displayRow := i / 640
  let displayCol := i % 640
  let addr ← toByteAddress (Word.ofNat (displayCol >>> 2)) (Word.ofNat (displayRow >>> 2)) reg
  let charIdx ← machine.peek addr
  let charRow := (displayRow / 2) % 8
  let charCol := (displayCol / 2) % 8
  let charByte ← machine.peek
    (Word.addUsize (Word.add reg.font (Word.ofNat (charIdx.val <<< 3))) charRow)
  let color ← machine.peek (Word.add addr (Word.mul reg.width reg.height))
  if charByte.val &&& (1 <<< (7 - charCol)) ≠ 0 then
    pure ((color.val >>> 5) <<< 5, ((color.val >>> 2) &&& 7) <<< 5,
      ((color.val &&& 3) <<< 1) <<< 5, 255)
  else
    pure (0, 0, 0, 255)

/-- Pixel body of `draw_paletted_low_text`. -/
def pixelPalettedLowText (machine : Memory) (reg : DisplayRegisters) (i : Nat) :
    Option Pixel := do
  let displayRow := i / 640
  let displayCol := i % 640
  let addr ← toByteAddress (Word.ofNat (displayCol >>> 2)) (Word.ofNat (displayRow >>> 2)) reg
  let charIdx ← machine.peek addr
  let charRow := (displayRow >>> 1) % 8
  let charCol := (displayCol >>> 1) % 8
  let charByte ← machine.peek
    (Word.addUsize (Word.add reg.font (Word.ofNat (charIdx.val <<< 3))) charRow)
  let colorByte ← machine.peek (Word.add addr (Word.mul reg.width reg.height))
  let fgColor ← machine.peek (Word.addU8 reg.palette (colorByte.val &&& 15))
  let bgColor ← machine.peek (Word.addU8 reg.palette (colorByte.val >>> 4))
  if charByte.val &&& (1 <<< (7 - charCol)) ≠ 0 then
    pure ((fgColor.val >>> 5) <<< 5, ((fgColor.val >>> 2) &&& 7) <<< 5,
      ((fgColor.val &&& 3) <<< 1) <<< 5, 255)
  else
    pure ((bgColor.val >>> 5) <<< 5, ((bgColor.val >>> 2) &&& 7) <<< 5,
      ((bgColor.val &&& 3) <<< 1) <<< 5, 255)

/-- Pixel body of `draw_direct_low_gfx` (letterboxed 192 by 192 window). -/
def pixelDirectLowGfx (machine : Memory) (reg : DisplayRegisters) (i : Nat) :
    Option Pixel := do
  let displayRow := i / 640
  let displayCol := i % 640
  if 240 - 64 * 3 ≤ displayRow ∧ displayRow < 240 + 64 * 3 ∧
      320 - 64 * 3 ≤ displayCol ∧ displayCol < 320 + 64 * 3 then
    let addr ← toByteAddress (Word.ofNat ((displayCol - (320 - 64 * 3)) / 3))
      (Word.ofNat ((displayRow - (240 - 64 * 3)) / 3)) reg
    let vb ← machine.peek addr
    pure ((vb.val >>> 5) <<< 5, ((vb.val >>> 2) &&& 7) <<< 5, ((vb.val &&& 3) <<< 1) <<< 5, 255)
  else
    pure (0, 0, 0, 255)

/-- Pixel body of `draw_paletted_low_gfx`. -/
def pixelPalettedLowGfx (machine : Memory) (reg : DisplayRegisters) (i : Nat) :
    Option Pixel := do
  let displayRow := i / 640
  let displayCol := i % 640
  if 240 - 64 * 3 ≤ displayRow ∧ displayRow < 240 + 64 * 3 ∧
      320 - 64 * 3 ≤ displayCol ∧ displayCol < 320 + 64 * 3 then
    let addr ← toByteAddress (Word.ofNat ((displayCol - (320 - 64 * 3)) / 3))
      (Word.ofNat ((displayRow - (240 - 64 * 3)) / 3)) reg
    let colorIdx ← machine.peek addr
    let vb ← machine.peek (Word.addU8 reg.palette colorIdx.val)
    pure ((vb.val >>> 5) <<< 5, ((vb.val >>> 2) &&& 7) <<< 5, ((vb.val &&& 3) <<< 1) <<< 5, 255)
  else
    pure (0, 0, 0, 255)

/-- The host frame buffer as a byte store; the contract fixes its length to
`640 * 480 * 4 = 1228800` bytes, i.e. `307200` four-byte pixels. -/
abbrev Frame := Nat → Nat

/-- Writing of one four-byte pixel chunk `i` (bytes `4i .. 4i+3`, R G B A). -/
def update4 (f : Frame) (i : Nat) (p : Pixel) : Frame :=
  fun j =>
    if j = 4 * i then p.1
    else if j = 4 * i + 1 then p.2.1
    else if j = 4 * i + 2 then p.2.2.1
    else if j = 4 * i + 3 then p.2.2.2
    else f j

/-- The `for (i, pixel) in frame.chunks_exact_mut(4).enumerate()` loop shared
by all eight mode functions: starting at chunk `i`, process `count` chunks; a
panicking body aborts the draw (`none`). -/
def renderFrom (body : Nat → Option Pixel) : Nat → Nat → Frame → Option Frame
  | _, 0, f => some f
  | i, count + 1, f => (body i).bind fun p => renderFrom body (i + 1) count (update4 f i p)

/-- Mode dispatch and frame loop, `draw`: read the register block at address
16, split `mode` into `(gfx, highres, paletted)` and run the matching
rasterizer over the `1228800 / 4 = 307200` pixel chunks. -/
def draw (machine : Memory) (frame : Frame) : Option Frame := do
  let reg ← readDisplayRegisters machine (Word.ofNat 16)
  let gfx := decide (0 < reg.mode.val &&& 1)
  let highres := decide (0 < reg.mode.val &&& 2)
  let paletted := decide (0 < reg.mode.val &&& 4)
  match paletted, highres, gfx with
  | true, true, true => renderFrom (pixelPalettedHighGfx machine reg) 0 307200 frame
  | false, true, true => renderFrom (pixelDirectHighGfx machine reg) 0 307200 frame
  | true, true, false => renderFrom (pixelPalettedHighText machine reg) 0 307200 frame
  | false, true, false => renderFrom (pixelDirectHighText machine reg) 0 307200 frame
  | false, false, false => renderFrom (pixelDirectLowText machine reg) 0 307200 frame
  | true, false, false => renderFrom (pixelPalettedLowText machine reg) 0 307200 frame
  | false, false, true => renderFrom (pixelDirectLowGfx machine reg) 0 307200 frame
  | true, false, true => renderFrom (pixelPalettedLowGfx machine reg) 0 307200 frame

/-! ### Claim-side definitions and concrete fixtures -/

/-- Arshift loop as the specification words it: shift right one position and or
in `0x800000`, `count` times. -/
def arshiftSpec : Nat → Nat → Nat
  | 0, v => v
  | n + 1, v => arshiftSpec n ((v >>> 1) ||| 8388608)

/-- Payload of a decode error, `none` for a successful decode (proof
infrastructure for reasoning about `Opcode.tryFrom`). -/
def exceptError : Except InvalidOpcode Opcode → Option Nat
  | .error e => some e.byte
  | .ok _ => none

/-- Test fixture: memory holding the given 24-bit words from address `a`
upward, three bytes each. -/
def stackMemAux : Memory → Nat → List Nat → Memory
  | m, _, [] => m
  | m, a, v :: rest =>
      stackMemAux
        (m.write3 a (Word.toBytes (Word.ofNat v)).1 (Word.toBytes (Word.ofNat v)).2.1
          (Word.toBytes (Word.ofNat v)).2.2)
        (a + 3) rest

/-- Test fixture: a freshly reset CPU whose data stack holds `vals` (first
element at the bottom, last on top), as the repository's own tests build it. -/
def stackCPU (vals : List Nat) : CPU :=
  { CPU.new (stackMemAux Memory.default 256 vals) with
    dp := Word.ofNat (256 + 3 * vals.length) }

/-- Fixture for the Setsdp scenario: data stack `[1000, 2000]`, 2000 on top. -/
def c2s0 : CPU := stackCPU [1000, 2000]

/-- State after the first pop of the Setsdp scenario. -/
def c2s1 : CPU := { c2s0 with dp := Word.subI32 c2s0.dp 3 }

/-- State after the second pop of the Setsdp scenario. -/
def c2s2 : CPU := { c2s1 with dp := Word.subI32 c2s1.dp 3 }

/-- Fixture for the branch scenario S2, stack `[0, 35]`. -/
def c5a0 : CPU := stackCPU [0, 35]

/-- State after the first pop of S2 with `[0, 35]`. -/
def c5a1 : CPU := { c5a0 with dp := Word.subI32 c5a0.dp 3 }

/-- State after the second pop of S2 with `[0, 35]`. -/
def c5a2 : CPU := { c5a1 with dp := Word.subI32 c5a1.dp 3 }

/-- Fixture for the branch scenario S2, stack `[17, 35]`. -/
def c5b0 : CPU := stackCPU [17, 35]

/-- State after the first pop of S2 with `[17, 35]`. -/
def c5b1 : CPU := { c5b0 with dp := Word.subI32 c5b0.dp 3 }

/-- State after the second pop of S2 with `[17, 35]`. -/
def c5b2 : CPU := { c5b1 with dp := Word.subI32 c5b1.dp 3 }

/-- Fixture for the Arshift scenario, stack `[0x800010, 2]`. -/
def c6s0 : CPU := stackCPU [8388624, 2]

/-- State after the first pop of the Arshift scenario. -/
def c6s1 : CPU := { c6s0 with dp := Word.subI32 c6s0.dp 3 }

/-- State after the second pop of the Arshift scenario. -/
def c6s2 : CPU := { c6s1 with dp := Word.subI32 c6s1.dp 3 }

/-- Fixture for scenario S4: data stack `[0x112233, 2048]`, 2048 on top. -/
def c7s0 : CPU := stackCPU [1122867, 2048]

/-- Fixture for the Sdp scenario: the reset state. -/
def c8s0 : CPU := CPU.new Memory.default

/-- State after `push_data(sp)` from reset. -/
def c8s1 : CPU := (CPU.pushData c8s0 c8s0.sp).getD c8s0

/-- State after `push_data(dp + 3)` following the first push. -/
def c8s2 : CPU := (CPU.pushData c8s1 (Word.addI32 c8s1.dp 3)).getD c8s0

/-- Fixture for the fetch boundary: program counter `0x20000`, one past the
last memory byte. -/
def c4bad : CPU := { CPU.new Memory.default with pc := Word.ofNat 131072 }

/-- Fixture for scenario S5: every memory byte is `0xFC`. -/
def c4s0 : CPU := CPU.new ⟨fun _ => 252⟩

/-- Fixture for a completing draw: mode 3 (direct high-res graphics), screen
at 0, width and height 1, offsets 0. -/
def c9m : Memory := ((Memory.default.writeByte 16 3).writeByte 26 1).writeByte 29 1

/-- The register block that `read_display_registers` reads from `c9m`. -/
def c9reg : DisplayRegisters :=
  ⟨3, Word.ofNat 0, Word.ofNat 0, Word.ofNat 0, Word.ofNat 1, Word.ofNat 1,
   Word.ofNat 0, Word.ofNat 0⟩

/-- The all-zero register block that `read_display_registers` reads from the
all-zero machine. -/
def c9regZero : DisplayRegisters :=
  ⟨0, Word.ofNat 0, Word.ofNat 0, Word.ofNat 0, Word.ofNat 0, Word.ofNat 0,
   Word.ofNat 0, Word.ofNat 0⟩

/-! ### Arithmetic support lemmas -/

lemma Word.ofNat_val (n : Nat) : (Word.ofNat n).val = n % 16777216 := rfl

lemma xor_allones {w : Nat} (h : w < 16777216) : w ^^^ 16777215 = 16777215 - w := by
  have h24 : w < 2 ^ 24 := by norm_num; omega
  apply Nat.eq_of_testBit_eq
  intro i
  have e1 : (16777215 : Nat) = 2 ^ 24 - 1 := by norm_num
  have e2 : (16777215 : Nat) - w = 2 ^ 24 - (w + 1) := by omega
  rw [e2, e1, Nat.testBit_xor, Nat.testBit_two_pow_sub_one, Nat.testBit_two_pow_sub_succ h24]
  by_cases hi : i < 24
  · simp [hi]
  · have : w < 2 ^ i := lt_of_lt_of_le h24 (Nat.pow_le_pow_right (by norm_num) (by omega))
    simp [hi, Nat.testBit_lt_two_pow this]

lemma Word.testBit23_iff (w : Word) : w.val.testBit 23 = true ↔ 8388608 ≤ w.val := by
  rw [Nat.testBit_to_div_mod]
  have := w.isLt
  simp only [decide_eq_true_eq]
  omega

/-- Closed form of `Word.toInt`: the value, lowered by `2^24` when bit 23 is
set. -/
lemma Word.toInt_spec (w : Word) :
    Word.toInt w = if w.val.testBit 23 then (w.val : Int) - 16777216 else (w.val : Int) := by
  unfold Word.toInt
  split
  · rw [xor_allones w.isLt]
    have := w.isLt
    omega
  · rfl

lemma Word.toInt_lt (w : Word) : Word.toInt w < 8388608 := by
  rw [Word.toInt_spec]
  have h := w.isLt
  split
  · omega
  · next hb =>
    have : ¬ 8388608 ≤ w.val := fun hle => hb ((Word.testBit23_iff w).mpr hle)
    omega

lemma Word.toInt_ge (w : Word) : -8388608 ≤ Word.toInt w := by
  rw [Word.toInt_spec]
  have h := w.isLt
  split
  · next hb =>
    have := (Word.testBit23_iff w).mp hb
    omega
  · omega

lemma Word.addI32_val (w : Word) (r : Int) :
    ((Word.addI32 w r).val : Int) = ((w.val : Int) + r) % 16777216 := by
  unfold Word.addI32
  rw [Word.ofNat_val, Word.toInt_spec]
  split <;> omega

lemma Word.subI32_val (w : Word) (r : Int) :
    ((Word.subI32 w r).val : Int) = ((w.val : Int) - r) % 16777216 := by
  unfold Word.subI32
  rw [Word.ofNat_val, Word.toInt_spec]
  split <;> omega

lemma Word.addI32_small (w : Word) (k : Nat) (h : w.val + k < 16777216) :
    (Word.addI32 w (k : Int)).val = w.val + k := by
  have h1 := Word.addI32_val w (k : Int)
  omega

lemma Word.subI32_addI32 (w : Word) (r : Int) : Word.subI32 (Word.addI32 w r) r = w := by
  apply Fin.ext
  have h1 := Word.addI32_val w r
  have h2 := Word.subI32_val (Word.addI32 w r) r
  have h3 := w.isLt
  have h4 := (Word.addI32 w r).isLt
  omega

lemma Word.fromBytes_toBytes (v : Word) :
    Word.fromBytes (Word.toBytes v).1 (Word.toBytes v).2.1 (Word.toBytes v).2.2 = v := by
  apply Fin.ext
  show (v.val % 256 + 256 * (v.val / 256 % 256) + 65536 * (v.val / 65536 % 256)) % 16777216 = v.val
  have := v.isLt
  omega

lemma Word.addUsize_val_small (a : Word) (k : Nat) (hk : k < 4294967296)
    (h : a.val + k < 16777216) : (Word.addUsize a k).val = a.val + k := by
  unfold Word.addUsize
  rw [Word.ofNat_val]
  omega

lemma Word.addU8_lt (w : Word) (b : Nat) : (Word.addU8 w b).val < 256 := by
  unfold Word.addU8
  rw [Word.ofNat_val]
  omega

/-! ### Memory support lemmas -/

lemma Memory.peek_in (m : Memory) (a : Word) (h : a.val < 131072) :
    m.peek a = some (m.data a.val) := by
  simp [Memory.peek, Word.toUsize, MEM_SIZE, h]

/-- The paletted color lookup `reg.palette + color_idx` lands below 256 (the
`u8`-wrapped add), so its `peek` never faults. -/
lemma Memory.peek_addU8_some (m : Memory) (w : Word) (b : Nat) :
    m.peek (Word.addU8 w b) = some (m.data (Word.addU8 w b).val) :=
  Memory.peek_in m _ (lt_trans (Word.addU8_lt w b) (by norm_num))

lemma Memory.peek_out (m : Memory) (a : Word) (h : ¬ a.val < 131072) :
    m.peek a = none := by
  simp [Memory.peek, Word.toUsize, MEM_SIZE, h]

lemma Memory.peek24_eval (m : Memory) (a : Word) (h : a.val + 2 < 131072) :
    m.peek24 a =
      some (Word.fromBytes (m.data a.val) (m.data (a.val + 1)) (m.data (a.val + 2))) := by
  have e0 : (Word.addUsize a 0).val = a.val := by
    have := Word.addUsize_val_small a 0 (by norm_num) (by omega)
    omega
  have e1 : (Word.addUsize a 1).val = a.val + 1 :=
    Word.addUsize_val_small a 1 (by norm_num) (by omega)
  have e2 : (Word.addUsize a 2).val = a.val + 2 :=
    Word.addUsize_val_small a 2 (by norm_num) (by omega)
  rw [Memory.peek24, Memory.peek_in _ _ (by omega : (Word.addUsize a 0).val < 131072),
    Memory.peek_in _ _ (by omega : (Word.addUsize a 1).val < 131072),
    Memory.peek_in _ _ (by omega : (Word.addUsize a 2).val < 131072), e0, e1, e2]
  rfl

lemma Memory.poke24_eq (m : Memory) (a : Word) (v : Word) :
    m.poke24 a v =
      if a.val + 2 < 131072 then
        some (m.write3 a.val (Word.toBytes v).1 (Word.toBytes v).2.1 (Word.toBytes v).2.2)
      else none := by
  have hv := a.isLt
  by_cases hc : a.val + 2 < 131072
  · have e0 : (Word.addUsize a 0).val = a.val := by
      have := Word.addUsize_val_small a 0 (by norm_num) (by omega)
      omega
    have e1 : (Word.addUsize a 1).val = a.val + 1 :=
      Word.addUsize_val_small a 1 (by norm_num) (by omega)
    have e2 : (Word.addUsize a 2).val = a.val + 2 :=
      Word.addUsize_val_small a 2 (by norm_num) (by omega)
    simp only [Memory.poke24, Memory.poke, Word.toUsize, MEM_SIZE, e0, e1, e2, hc, if_pos,
      (by omega : a.val < 131072), (by omega : a.val + 1 < 131072), Option.bind_eq_bind,
      Option.some_bind, if_true]
    rfl
  · rw [if_neg hc]
    by_cases h0 : a.val < 131072
    · have e0 : (Word.addUsize a 0).val = a.val := by
        have := Word.addUsize_val_small a 0 (by norm_num) (by omega)
        omega
      have e1 : (Word.addUsize a 1).val = a.val + 1 :=
        Word.addUsize_val_small a 1 (by norm_num) (by omega)
      have e2 : (Word.addUsize a 2).val = a.val + 2 :=
        Word.addUsize_val_small a 2 (by norm_num) (by omega)
      by_cases h1 : a.val + 1 < 131072
      · have g2 : ¬ (Word.addUsize a 2).val < 131072 := by omega
        simp [Memory.poke24, Memory.poke, Word.toUsize, MEM_SIZE, e0, e1, h0, h1, g2]
      · have g1 : ¬ (Word.addUsize a 1).val < 131072 := by omega
        simp [Memory.poke24, Memory.poke, Word.toUsize, MEM_SIZE, e0, g1, h0]
    · have g0 : ¬ (Word.addUsize a 0).val < 131072 := by
        have := Word.addUsize_val_small a 0 (by norm_num) (by omega)
        omega
      simp [Memory.poke24, Memory.poke, Word.toUsize, MEM_SIZE, g0]

lemma Memory.write3_data_at0 (m : Memory) (a : Nat) (b0 b1 b2 : Fin 256) :
    (m.write3 a b0 b1 b2).data a = b0 := by
  simp [Memory.write3, (show ¬ a = a + 2 by omega), (show ¬ a = a + 1 by omega)]

lemma Memory.write3_data_at1 (m : Memory) (a : Nat) (b0 b1 b2 : Fin 256) :
    (m.write3 a b0 b1 b2).data (a + 1) = b1 := by
  simp [Memory.write3, (show ¬ a + 1 = a + 2 by omega)]

lemma Memory.write3_data_at2 (m : Memory) (a : Nat) (b0 b1 b2 : Fin 256) :
    (m.write3 a b0 b1 b2).data (a + 2) = b2 := by
  simp [Memory.write3]

lemma Memory.write3_data_other (m : Memory) (a : Nat) (b0 b1 b2 : Fin 256) (j : Nat)
    (h0 : j ≠ a) (h1 : j ≠ a + 1) (h2 : j ≠ a + 2) :
    (m.write3 a b0 b1 b2).data j = m.data j := by
  simp [Memory.write3, h0, h1, h2]

lemma Memory.peek24_write3_same (m : Memory) (a : Word) (v : Word) (hc : a.val + 2 < 131072) :
    (m.write3 a.val (Word.toBytes v).1 (Word.toBytes v).2.1 (Word.toBytes v).2.2).peek24 a
      = some v := by
  rw [Memory.peek24_eval _ _ hc, Memory.write3_data_at0, Memory.write3_data_at1,
    Memory.write3_data_at2, Word.fromBytes_toBytes]

lemma Memory.peek24_poke24_same {m m' : Memory} {a v : Word} (h : m.poke24 a v = some m') :
    m'.peek24 a = some v := by
  rw [Memory.poke24_eq] at h
  by_cases hc : a.val + 2 < 131072
  · rw [if_pos hc] at h
    injection h with h
    rw [← h]
    exact Memory.peek24_write3_same m a v hc
  · rw [if_neg hc] at h
    exact absurd h (by simp)

lemma Memory.poke24_some_bounds {m m' : Memory} {a v : Word} (h : m.poke24 a v = some m') :
    a.val + 2 < 131072 := by
  rw [Memory.poke24_eq] at h
  by_cases hc : a.val + 2 < 131072
  · exact hc
  · rw [if_neg hc] at h
    exact absurd h (by simp)

lemma Memory.peek24_write3_above (m : Memory) (a : Nat) (b0 b1 b2 : Fin 256) (c : Word)
    (hc : c.val + 2 < 131072) (hdisj : c.val + 2 < a) :
    (m.write3 a b0 b1 b2).peek24 c = m.peek24 c := by
  rw [Memory.peek24_eval _ _ hc, Memory.peek24_eval _ _ hc,
    Memory.write3_data_other _ _ _ _ _ _ (by omega) (by omega) (by omega),
    Memory.write3_data_other _ _ _ _ _ _ (by omega) (by omega) (by omega),
    Memory.write3_data_other _ _ _ _ _ _ (by omega) (by omega) (by omega)]

/-! ### Stack operation lemmas -/

lemma CPU.pushData_eq (cpu : CPU) (w : Word) :
    CPU.pushData cpu w =
      if cpu.dp.val + 2 < 131072 then
        some { cpu with
          memory := cpu.memory.write3 cpu.dp.val
            (Word.toBytes w).1 (Word.toBytes w).2.1 (Word.toBytes w).2.2,
          dp := Word.addI32 cpu.dp 3 }
      else none := by
  unfold CPU.pushData
  rw [Memory.poke24_eq]
  by_cases hc : cpu.dp.val + 2 < 131072 <;> simp [hc]

lemma CPU.popData_eq_some {cpu : CPU} {x : Word} {c' : CPU}
    (h : CPU.popData cpu = some (x, c')) :
    cpu.memory.peek24 (Word.subI32 cpu.dp 3) = some x ∧
    c' = { cpu with dp := Word.subI32 cpu.dp 3 } := by
  unfold CPU.popData at h
  cases e : cpu.memory.peek24 (Word.subI32 cpu.dp 3) with
  | none => rw [e] at h; exact absurd h (by simp)
  | some w =>
    rw [e] at h
    simp only [Option.map_some'] at h
    injection h with h
    injection h with hw hc
    exact ⟨by rw [hw], hc.symm⟩

lemma CPU.pushData_eq_some {cpu : CPU} {w : Word} {c' : CPU} (h : CPU.pushData cpu w = some c') :
    cpu.dp.val + 2 < 131072 ∧
    c' = { cpu with
      memory := cpu.memory.write3 cpu.dp.val
        (Word.toBytes w).1 (Word.toBytes w).2.1 (Word.toBytes w).2.2,
      dp := Word.addI32 cpu.dp 3 } := by
  rw [CPU.pushData_eq] at h
  by_cases hc : cpu.dp.val + 2 < 131072
  · rw [if_pos hc] at h
    injection h with h
    exact ⟨hc, h.symm⟩
  · rw [if_neg hc] at h
    exact absurd h (by simp)

/-! ### Claim theorems -/

/-- C1 (code_bug): the specification promises modular addressing
(`word mod 2^17`, never faulting), and indeed `0x20000 % 2^17 = 0` resolves to
a readable byte; but `Memory::peek`/`Memory::poke` index the 131072-byte array
with the full 24-bit `usize::from(word)`, so the access at address `0x20000`
panics (modelled as `none`) instead of reading offset 0. -/
theorem c1_memory_addressing_faults_beyond_128k :
    Memory.peek Memory.default (Word.ofNat 131072) = none ∧
    Memory.poke Memory.default (Word.ofNat 131072) 0 = none ∧
    (131072 : Nat) % 131072 = 0 ∧
    Memory.peek Memory.default (Word.ofNat 0) = some 0 :=
  ⟨rfl, rfl, rfl, rfl⟩

/-- C2 (counterexample): from data stack `[1000, 2000]` (2000 on top, so
`x = 2000`, `y = 1000`), `Setsdp` leaves `sp = 1000` and `dp = 2000` — the
claim demands `sp = x = 2000` and `dp = y = 1000`, which is false. -/
theorem c2_counterexample :
    (CPU.execute c2s0 ⟨Opcode.Setsdp, none, 1⟩).map (fun r => (r.1.sp, r.1.dp)) =
      some (Word.ofNat 1000, Word.ofNat 2000) ∧
    (Word.ofNat 1000 : Word) ≠ Word.ofNat 2000 := by
  exact ⟨by decide, by decide⟩

/-- C2 (amended): executing `Setsdp` with `x` the first-popped (top) word and
`y` the second-popped word sets `dp` to `x` and `sp` to `y` (the reverse of the
claim's assignment), pushes nothing, and advances `pc` by the instruction
length. -/
theorem c2_setsdp_sets_dp_x_sp_y (cpu : CPU) (len : Nat) (x y : Word) (c1 c2 : CPU)
    (h1 : CPU.popData cpu = some (x, c1)) (h2 : CPU.popData c1 = some (y, c2)) :
    CPU.execute cpu ⟨Opcode.Setsdp, none, len⟩ =
      some ({ c2 with dp := x, sp := y }, Word.addI32 c2.pc (len : Int)) := by
  simp only [CPU.execute, Option.bind_eq_bind, Option.pure_def, Option.some_bind, h1, h2]
  rfl

/-- C2 (witness): the amended statement at the concrete stack `[1000, 2000]`. -/
theorem c2_setsdp_witness :
    CPU.popData c2s0 = some (Word.ofNat 2000, c2s1) ∧
    CPU.popData c2s1 = some (Word.ofNat 1000, c2s2) ∧
    CPU.execute c2s0 ⟨Opcode.Setsdp, none, 1⟩ =
      some ({ c2s2 with dp := Word.ofNat 2000, sp := Word.ofNat 1000 },
        Word.addI32 c2s2.pc ((1 : Nat) : Int)) :=
  ⟨rfl, rfl, c2_setsdp_sets_dp_x_sp_y c2s0 1 (Word.ofNat 2000) (Word.ofNat 1000) c2s1 c2s2 rfl rfl⟩

/-- C3 (code_bug): executing `Div` or `Mod` with divisor `x = 0` on top of the
data stack panics the host (`u32::overflowing_div` and `u32::rem` panic on a
zero divisor, modelled as `none`): the step is not a total function, although
the specification requires that the implementation "must not crash the host". -/
theorem c3_div_mod_by_zero_panics :
    CPU.execute (stackCPU [5, 0]) ⟨Opcode.Div, none, 1⟩ = none ∧
    CPU.execute (stackCPU [5, 0]) ⟨Opcode.Mod, none, 1⟩ = none :=
  ⟨rfl, rfl⟩

/-- C5 (confirmed): `Brz` with `y = 0` (and `Brnz` with `y ≠ 0`) returns the
next program counter `pc + signed(x)` computed from the branch instruction's
own `pc`; when the condition fails the next program counter is `pc + length`. -/
theorem c5_branch_semantics (cpu : CPU) (len : Nat) (x y : Word) (c1 c2 : CPU)
    (h1 : CPU.popData cpu = some (x, c1)) (h2 : CPU.popData c1 = some (y, c2)) :
    (y.val = 0 →
      CPU.execute cpu ⟨Opcode.Brz, none, len⟩ =
        some (c2, Word.addI32 cpu.pc (Word.toInt x)) ∧
      CPU.execute cpu ⟨Opcode.Brnz, none, len⟩ =
        some (c2, Word.addI32 c2.pc (len : Int))) ∧
    (y.val ≠ 0 →
      CPU.execute cpu ⟨Opcode.Brnz, none, len⟩ =
        some (c2, Word.addI32 cpu.pc (Word.toInt x)) ∧
      CPU.execute cpu ⟨Opcode.Brz, none, len⟩ =
        some (c2, Word.addI32 c2.pc (len : Int))) := by
  obtain ⟨-, rfl⟩ := CPU.popData_eq_some h2
  obtain ⟨-, rfl⟩ := CPU.popData_eq_some h1
  constructor <;> intro hy
  · constructor
    · simp only [CPU.execute, Option.bind_eq_bind, Option.pure_def, Option.some_bind, h1, h2]
      rw [if_pos hy]
      rfl
    · simp only [CPU.execute, Option.bind_eq_bind, Option.pure_def, Option.some_bind, h1, h2]
      rw [if_neg (fun hh : y.val ≠ 0 => hh hy)]
      rfl
  · constructor
    · simp only [CPU.execute, Option.bind_eq_bind, Option.pure_def, Option.some_bind, h1, h2]
      rw [if_pos hy]
      rfl
    · simp only [CPU.execute, Option.bind_eq_bind, Option.pure_def, Option.some_bind, h1, h2]
      rw [if_neg hy]
      rfl

/-- C5 (witness): scenario S2.  With stack `[0, 35]` a length-1 `Brnz` at
`pc = 1024` advances to 1025 (not taken); with `[17, 35]` it branches to
`1024 + 35 = 1059`. -/
theorem c5_branch_witness :
    CPU.popData c5a0 = some (Word.ofNat 35, c5a1) ∧
    CPU.popData c5a1 = some (Word.ofNat 0, c5a2) ∧
    (((Word.ofNat 0 : Word).val = 0 →
      CPU.execute c5a0 ⟨Opcode.Brz, none, 1⟩ =
        some (c5a2, Word.addI32 c5a0.pc (Word.toInt (Word.ofNat 35))) ∧
      CPU.execute c5a0 ⟨Opcode.Brnz, none, 1⟩ =
        some (c5a2, Word.addI32 c5a2.pc ((1 : Nat) : Int))) ∧
     ((Word.ofNat 0 : Word).val ≠ 0 →
      CPU.execute c5a0 ⟨Opcode.Brnz, none, 1⟩ =
        some (c5a2, Word.addI32 c5a0.pc (Word.toInt (Word.ofNat 35))) ∧
      CPU.execute c5a0 ⟨Opcode.Brz, none, 1⟩ =
        some (c5a2, Word.addI32 c5a2.pc ((1 : Nat) : Int)))) ∧
    CPU.popData c5b0 = some (Word.ofNat 35, c5b1) ∧
    CPU.popData c5b1 = some (Word.ofNat 17, c5b2) ∧
    (((Word.ofNat 17 : Word).val = 0 →
      CPU.execute c5b0 ⟨Opcode.Brz, none, 1⟩ =
        some (c5b2, Word.addI32 c5b0.pc (Word.toInt (Word.ofNat 35))) ∧
      CPU.execute c5b0 ⟨Opcode.Brnz, none, 1⟩ =
        some (c5b2, Word.addI32 c5b2.pc ((1 : Nat) : Int))) ∧
     ((Word.ofNat 17 : Word).val ≠ 0 →
      CPU.execute c5b0 ⟨Opcode.Brnz, none, 1⟩ =
        some (c5b2, Word.addI32 c5b0.pc (Word.toInt (Word.ofNat 35))) ∧
      CPU.execute c5b0 ⟨Opcode.Brz, none, 1⟩ =
        some (c5b2, Word.addI32 c5b2.pc ((1 : Nat) : Int)))) ∧
    Word.addI32 c5a2.pc ((1 : Nat) : Int) = Word.ofNat 1025 ∧
    Word.addI32 c5b0.pc (Word.toInt (Word.ofNat 35)) = Word.ofNat 1059 :=
  ⟨rfl, rfl, c5_branch_semantics c5a0 1 (Word.ofNat 35) (Word.ofNat 0) c5a1 c5a2 rfl rfl,
   rfl, rfl, c5_branch_semantics c5b0 1 (Word.ofNat 35) (Word.ofNat 17) c5b1 c5b2 rfl rfl,
   by decide, by decide⟩

/-- C7 (confirmed): scenario S4.  From data stack `[0x112233, 2048]`, `Storew`
stores bytes `33 22 11` at 2048..2050 and empties both cells (`dp` back to
256); pushing 2048 and executing `Loadw` then leaves `0x112233` on top. -/
theorem c7_storew_loadw_roundtrip :
    ((CPU.execute c7s0 ⟨Opcode.Storew, none, 1⟩).map fun r =>
      (r.1.memory.peek (Word.ofNat 2048), r.1.memory.peek (Word.ofNat 2049),
       r.1.memory.peek (Word.ofNat 2050), r.1.dp)) =
      some (some 0x33, some 0x22, some 0x11, Word.ofNat 256) ∧
    ((CPU.execute c7s0 ⟨Opcode.Storew, none, 1⟩).bind fun r =>
      (CPU.pushData { r.1 with pc := r.2 } (Word.ofNat 2048)).bind fun c =>
      (CPU.execute c ⟨Opcode.Loadw, none, 1⟩).bind fun r2 =>
      CPU.peekData r2.1) = some (Word.ofNat 0x112233) := by
  exact ⟨by decide, by decide⟩

/-- C8 (confirmed): `Sdp` pushes `sp`, then pushes `dp + 3` evaluated after the
first push (so the word pushed is `dp0 + 6`); afterwards the top data-stack
word equals the final `dp`, the word below it equals the original `sp`, and
`dp` has grown by 6. -/
theorem c8_sdp_pushes_sp_then_dp (cpu : CPU) (len : Nat) (c1 c2 : CPU)
    (h1 : CPU.pushData cpu cpu.sp = some c1)
    (h2 : CPU.pushData c1 (Word.addI32 c1.dp 3) = some c2) :
    CPU.execute cpu ⟨Opcode.Sdp, none, len⟩ = some (c2, Word.addI32 c2.pc (len : Int)) ∧
    CPU.peekData c2 = some c2.dp ∧
    c2.memory.peek24 cpu.dp = some cpu.sp ∧
    c2.dp.val = cpu.dp.val + 6 := by
  have hex : CPU.execute cpu ⟨Opcode.Sdp, none, len⟩ =
      some (c2, Word.addI32 c2.pc (len : Int)) := by
    simp only [CPU.execute, Option.bind_eq_bind, Option.pure_def, Option.some_bind, h1, h2]
    rfl
  obtain ⟨hb1, rfl⟩ := CPU.pushData_eq_some h1
  obtain ⟨hb2, rfl⟩ := CPU.pushData_eq_some h2
  have hb2' : (Word.addI32 cpu.dp 3).val + 2 < 131072 := hb2
  have hd3 : (Word.addI32 cpu.dp 3).val = cpu.dp.val + 3 := by
    have := Word.addI32_val cpu.dp 3
    omega
  refine ⟨hex, ?_, ?_, ?_⟩
  · dsimp only [CPU.peekData]
    rw [Word.subI32_addI32]
    exact Memory.peek24_write3_same _ _ _ hb2'
  · dsimp only
    rw [Memory.peek24_write3_above _ _ _ _ _ cpu.dp (by omega) (by omega)]
    exact Memory.peek24_write3_same _ _ _ hb1
  · dsimp only
    have := Word.addI32_val (Word.addI32 cpu.dp 3) 3
    omega

/-- C8 (witness): from the reset state (`dp = 256`, `sp = 1024`) the data
stack after `Sdp` is `[1024, 262]` and the top equals the final `dp = 262`. -/
theorem c8_sdp_witness :
    CPU.pushData c8s0 c8s0.sp = some c8s1 ∧
    CPU.pushData c8s1 (Word.addI32 c8s1.dp 3) = some c8s2 ∧
    (CPU.execute c8s0 ⟨Opcode.Sdp, none, 1⟩ = some (c8s2, Word.addI32 c8s2.pc ((1 : Nat) : Int)) ∧
     CPU.peekData c8s2 = some c8s2.dp ∧
     c8s2.memory.peek24 c8s0.dp = some c8s0.sp ∧
     c8s2.dp.val = c8s0.dp.val + 6) ∧
    CPU.peekData c8s2 = some (Word.ofNat 262) ∧
    c8s2.memory.peek24 (Word.ofNat 256) = some (Word.ofNat 1024) :=
  ⟨rfl, rfl, c8_sdp_pushes_sp_then_dp c8s0 1 c8s1 c8s2 rfl rfl, by decide, by decide⟩

set_option maxRecDepth 4000 in
lemma tryFrom_characterization :
    ∀ b : Fin 256, exceptError (Opcode.tryFrom (b.val >>> 2)) =
      if 42 < b.val >>> 2 then some (b.val >>> 2) else none := by
  decide

/-- C4 (counterexample): with `pc = 0x20000` the fetch does not return a decode
result at all — the lead-byte read panics (the addressing fault of C1) before
the opcode field can be examined, so the claim's "for every memory content and
pc" fails. -/
theorem c4_counterexample : CPU.fetch c4bad = none := rfl

/-- C4 (amended): for every memory content and every `pc` that resolves inside
the 131072-byte array, `CPU::fetch` returns an `InvalidOpcode` error exactly
when the 6-bit opcode field (lead byte `>> 2`) is outside 0..42, and the error
carries that 6-bit field value.  (`fetch` takes the CPU immutably — `&self` —
so registers and memory are unchanged by construction.) -/
theorem c4_fetch_decode_error_iff (cpu : CPU) (h : cpu.pc.val < 131072) (e : InvalidOpcode) :
    CPU.fetch cpu = some (Except.error e) ↔
      (42 < (cpu.memory.data cpu.pc.val).val >>> 2 ∧
       e = ⟨(cpu.memory.data cpu.pc.val).val >>> 2⟩) := by
  have hpk : cpu.memory.peek cpu.pc = some (cpu.memory.data cpu.pc.val) :=
    Memory.peek_in _ _ h
  set b := cpu.memory.data cpu.pc.val with hb
  have hch := tryFrom_characterization b
  constructor
  · intro hf
    simp only [CPU.fetch, hpk, Option.bind_eq_bind, Option.some_bind] at hf
    split at hf
    next e2 heq =>
      rw [heq] at hch
      simp only [exceptError] at hch
      have he2 : e2 = e := by
        simp only [Option.pure_def] at hf
        injection hf with hf
        injection hf
      by_cases hv : 42 < b.val >>> 2
      · rw [if_pos hv] at hch
        injection hch with hch
        refine ⟨hv, ?_⟩
        cases e2 with
        | mk byte => rw [← he2]; simp_all
      · rw [if_neg hv] at hch
        exact absurd hch (by simp)
    next o heq =>
      exfalso
      by_cases ha : b.val &&& 3 = 0
      · rw [if_pos ha] at hf
        simp only [Option.pure_def] at hf
        injection hf with hf
        injection hf
      · rw [if_neg ha] at hf
        cases harg : CPU.argBytes cpu (b.val &&& 3) with
        | none => rw [harg] at hf; exact absurd hf (by simp)
        | some a =>
          rw [harg] at hf
          simp only [Option.bind_eq_bind, Option.some_bind, Option.pure_def] at hf
          injection hf with hf
          injection hf
  · rintro ⟨hv, rfl⟩
    have htf : Opcode.tryFrom (b.val >>> 2) = .error ⟨b.val >>> 2⟩ := by
      rw [if_pos hv] at hch
      cases htf2 : Opcode.tryFrom (b.val >>> 2) with
      | error e2 =>
        rw [htf2] at hch
        simp only [exceptError] at hch
        injection hch with hch
        cases e2 with
        | mk byte => simp_all
      | ok o =>
        rw [htf2] at hch
        exact absurd hch (by simp [exceptError])
    simp only [CPU.fetch, hpk, Option.bind_eq_bind, Option.some_bind, htf]
    rfl

/-- C4 (witness): scenario S5 — every memory byte `0xFC`, so the lead byte at
`pc = 1024` has opcode field `0x3F = 63`; fetch reports `InvalidOpcode(0x3F)`. -/
theorem c4_fetch_witness :
    c4s0.pc.val < 131072 ∧
    (CPU.fetch c4s0 = some (Except.error ⟨63⟩) ↔
      (42 < (c4s0.memory.data c4s0.pc.val).val >>> 2 ∧
       (⟨63⟩ : InvalidOpcode) = ⟨(c4s0.memory.data c4s0.pc.val).val >>> 2⟩)) ∧
    CPU.fetch c4s0 = some (Except.error ⟨63⟩) :=
  ⟨by decide, c4_fetch_decode_error_iff c4s0 (by decide) ⟨63⟩, rfl⟩

lemma lor_two_pow_eq_add {n b : Nat} (hb : b < 2 ^ n) : b ||| 2 ^ n = b + 2 ^ n := by
  have h := Nat.mul_add_lt_is_or hb 1
  rw [mul_one] at h
  rw [Nat.lor_comm, ← h]
  omega

lemma arshiftStep_or (w : Word) : Word.arshiftStep w = Word.ofNat ((w.val >>> 1) ||| 8388608) := by
  have hw := w.isLt
  by_cases hb : w.val.testBit 23
  · have hge : 8388608 ≤ w.val := (Word.testBit23_iff w).mp hb
    have hsext : Word.sext32 w = 4278190080 + w.val := by
      have h1 : (2:Nat) ^ 24 * 255 + w.val = 2 ^ 24 * 255 ||| w.val :=
        Nat.mul_add_lt_is_or (show w.val < 2 ^ 24 by rw [show (2:Nat) ^ 24 = 16777216 from by norm_num]; omega) 255
      rw [Word.sext32, if_pos hb, Nat.lor_comm, show (4278190080:Nat) = 2 ^ 24 * 255 by norm_num,
        ← h1]
    have hS1 : Word.sext32 w >>> 1 = 2139095040 + w.val / 2 := by
      rw [hsext, Nat.shiftRight_eq_div_pow, pow_one]
      omega
    have hS31 : Word.sext32 w &&& 2147483648 = 2147483648 := by
      rw [show (2147483648:Nat) = 2 ^ 31 by norm_num, Nat.and_two_pow]
      have ht : (Word.sext32 w).testBit 31 = true := by
        rw [Nat.testBit_to_div_mod, hsext]
        simp only [decide_eq_true_eq]
        omega
      rw [ht]
      simp
    have hA : (Word.sext32 w >>> 1) ||| (Word.sext32 w &&& 2147483648) =
        4286578688 + w.val / 2 := by
      rw [hS1, hS31, Nat.lor_comm, show (2147483648:Nat) = 2 ^ 31 by norm_num]
      have h2 : (2:Nat) ^ 31 * 1 + (2139095040 + w.val / 2) =
          2 ^ 31 * 1 ||| (2139095040 + w.val / 2) :=
        Nat.mul_add_lt_is_or (show 2139095040 + w.val / 2 < 2 ^ 31 by rw [show (2:Nat) ^ 31 = 2147483648 from by norm_num]; omega) 1
      rw [mul_one] at h2
      rw [← h2]
      omega
    have hd : 4286578688 + w.val / 2 = 4286578688 ||| (w.val / 2) := by
      have h3 := Nat.mul_add_lt_is_or (show w.val / 2 < 2 ^ 23 by rw [show (2:Nat) ^ 23 = 8388608 from by norm_num]; omega) 511
      rw [show (4286578688:Nat) = 2 ^ 23 * 511 by norm_num]
      exact h3
    have hB : (4286578688 + w.val / 2) ||| 8388608 = 4286578688 + w.val / 2 := by
      rw [hd, Nat.lor_assoc, Nat.lor_comm (w.val / 2) 8388608, ← Nat.lor_assoc,
        show (4286578688:Nat) ||| 8388608 = 4286578688 from by decide, ← hd]
    have hRHS : w.val >>> 1 ||| 8388608 = w.val / 2 + 8388608 := by
      rw [Nat.shiftRight_eq_div_pow, pow_one, show (8388608:Nat) = 2 ^ 23 by norm_num]
      exact lor_two_pow_eq_add (show w.val / 2 < 2 ^ 23 by rw [show (2:Nat) ^ 23 = 8388608 from by norm_num]; omega)
    apply Fin.ext
    show (((Word.sext32 w >>> 1) ||| (Word.sext32 w &&& 2147483648)) ||| 8388608) % 16777216 =
      ((w.val >>> 1) ||| 8388608) % 16777216
    rw [hA, hB, hRHS]
    omega
  · have hb' : w.val.testBit 23 = false := by simpa using hb
    have h31 : w.val &&& 2147483648 = 0 := by
      rw [show (2147483648:Nat) = 2 ^ 31 by norm_num, Nat.and_two_pow,
        Nat.testBit_lt_two_pow (show w.val < 2 ^ 31 by rw [show (2:Nat) ^ 31 = 2147483648 from by norm_num]; omega)]
      simp
    apply Fin.ext
    show (((Word.sext32 w >>> 1) ||| (Word.sext32 w &&& 2147483648)) ||| 8388608) % 16777216 =
      ((w.val >>> 1) ||| 8388608) % 16777216
    simp only [Word.sext32, hb', if_false, Bool.false_eq_true, h31, Nat.or_zero]

lemma arshiftSpec_closed :
    ∀ (n : Nat), n ≤ 24 → ∀ v : Nat, v < 16777216 →
      arshiftSpec n v = (v >>> n) + (16777216 - 2 ^ (24 - n)) := by
  intro n
  induction n with
  | zero =>
    intro _ v hv
    show v = v >>> 0 + (16777216 - 2 ^ 24)
    rw [Nat.shiftRight_zero, show (2:Nat) ^ 24 = 16777216 from by norm_num]
    omega
  | succ n ih =>
    intro hn v hv
    show arshiftSpec n ((v >>> 1) ||| 8388608) = v >>> (n + 1) + (16777216 - 2 ^ (24 - (n + 1)))
    have hv2 : v >>> 1 < 8388608 := by
      rw [Nat.shiftRight_eq_div_pow, pow_one]
      omega
    have hor : (v >>> 1) ||| 8388608 = v >>> 1 + 8388608 := by
      rw [show (8388608:Nat) = 2 ^ 23 from by norm_num] at hv2 ⊢
      exact lor_two_pow_eq_add hv2
    have hn' : n ≤ 24 := by omega
    have hlt2 : v >>> 1 + 8388608 < 16777216 := by omega
    rw [hor, ih hn' (v >>> 1 + 8388608) hlt2]
    have e1 : (v >>> 1 + 8388608) >>> n = v >>> (n + 1) + 2 ^ (23 - n) := by
      rw [Nat.shiftRight_eq_div_pow, Nat.shiftRight_eq_div_pow, Nat.shiftRight_eq_div_pow,
        pow_one, show (8388608:Nat) = 2 ^ n * 2 ^ (23 - n) from by
          rw [← pow_add, show n + (23 - n) = 23 from by omega]; norm_num,
        Nat.add_comm, Nat.mul_add_div (Nat.pos_pow_of_pos n (by norm_num)),
        Nat.div_div_eq_div_mul, ← pow_succ']
      omega
    rw [e1]
    have p1 : (2:Nat) ^ (24 - n) = 2 * 2 ^ (23 - n) := by
      rw [← pow_succ', show 23 - n + 1 = 24 - n from by omega]
    have p2 : (2:Nat) ^ (23 - n) ≤ 8388608 := by
      have hq : (2:Nat) ^ (23 - n) ≤ 2 ^ 23 := Nat.pow_le_pow_right (by norm_num) (by omega)
      rw [show (2:Nat) ^ 23 = 8388608 from by norm_num] at hq
      exact hq
    have p3 : (2:Nat) ^ (24 - (n + 1)) = 2 ^ (23 - n) := by
      rw [show 24 - (n + 1) = 23 - n from by omega]
    rw [p3, p1]
    omega

lemma arshiftLoop_eq_spec :
    ∀ (n : Nat) (w : Word), Word.arshiftLoop n w = Word.ofNat (arshiftSpec n w.val) := by
  intro n
  induction n with
  | zero =>
    intro w
    show w = Word.ofNat w.val
    apply Fin.ext
    rw [Word.ofNat_val, Nat.mod_eq_of_lt w.isLt]
  | succ n ih =>
    intro w
    show Word.arshiftLoop n (Word.arshiftStep w) = _
    rw [ih (Word.arshiftStep w), arshiftStep_or]
    congr 1
    have h1 : w.val >>> 1 < 8388608 := by
      rw [Nat.shiftRight_eq_div_pow, pow_one]
      have := w.isLt
      omega
    have hlt : (w.val >>> 1) ||| 8388608 < 16777216 := by
      have hlt0 : (w.val >>> 1) ||| 8388608 < 2 ^ 24 :=
        Nat.or_lt_two_pow
          (by rw [show (2:Nat) ^ 24 = 16777216 from by norm_num]; omega)
          (by rw [show (2:Nat) ^ 24 = 16777216 from by norm_num]; omega)
      rw [show (2:Nat) ^ 24 = 16777216 from by norm_num] at hlt0
      exact hlt0
    rw [Word.ofNat_val, Nat.mod_eq_of_lt hlt]
    rfl

lemma arshiftSpec_saturate (v : Nat) (hv : v < 16777216) : arshiftSpec 24 v = 16777215 := by
  rw [arshiftSpec_closed 24 le_rfl v hv]
  have h0 : v >>> 24 = 0 := by
    rw [Nat.shiftRight_eq_div_pow, show (2:Nat) ^ 24 = 16777216 from by norm_num]
    omega
  rw [h0]
  norm_num

/-- C6 (confirmed): `Arshift` with operands `y` (second pop) and `x` (first
pop).  If bit 23 of `y` is set, it pushes `y` shifted right by
`clamp(x, 0, 24)` positions with `0x800000` or-ed in after each single-bit
shift, and every shift amount of 24 or more yields `0xFFFFFF`; if bit 23 of
`y` is clear it behaves exactly as `Rshift`. -/
theorem c6_arshift_semantics (cpu : CPU) (len : Nat) (x y : Word) (c1 c2 : CPU)
    (h1 : CPU.popData cpu = some (x, c1)) (h2 : CPU.popData c1 = some (y, c2)) :
    (y.val.testBit 23 = true →
      CPU.execute cpu ⟨Opcode.Arshift, none, len⟩ =
        CPU.thenAdvance len (CPU.pushData c2 (Word.ofNat (arshiftSpec (min x.val 24) y.val))) ∧
      (24 ≤ x.val → arshiftSpec (min x.val 24) y.val = 16777215)) ∧
    (y.val.testBit 23 = false →
      CPU.execute cpu ⟨Opcode.Arshift, none, len⟩ =
        CPU.execute cpu ⟨Opcode.Rshift, none, len⟩) := by
  constructor
  · intro hy
    constructor
    · simp only [CPU.execute, Option.bind_eq_bind, Option.pure_def, Option.some_bind, h1, h2]
      rw [if_pos hy, arshiftLoop_eq_spec]
      rfl
    · intro hx
      rw [show min x.val 24 = 24 from by omega]
      exact arshiftSpec_saturate y.val y.isLt
  · intro hy
    simp only [CPU.execute, Option.bind_eq_bind, Option.pure_def, Option.some_bind, h1, h2, hy,
      Bool.false_eq_true, if_false]
    rfl

/-- C6 (witness): the repository's own test vector — stack `[0x800010, 2]`
gives `0xE00004`; bit 23 of `0x800010` is set. -/
theorem c6_arshift_witness :
    CPU.popData c6s0 = some (Word.ofNat 2, c6s1) ∧
    CPU.popData c6s1 = some (Word.ofNat 8388624, c6s2) ∧
    (((Word.ofNat 8388624 : Word).val.testBit 23 = true →
      CPU.execute c6s0 ⟨Opcode.Arshift, none, 1⟩ =
        CPU.thenAdvance 1 (CPU.pushData c6s2
          (Word.ofNat (arshiftSpec (min (Word.ofNat 2 : Word).val 24)
            (Word.ofNat 8388624 : Word).val))) ∧
      (24 ≤ (Word.ofNat 2 : Word).val →
        arshiftSpec (min (Word.ofNat 2 : Word).val 24) (Word.ofNat 8388624 : Word).val =
          16777215)) ∧
     ((Word.ofNat 8388624 : Word).val.testBit 23 = false →
      CPU.execute c6s0 ⟨Opcode.Arshift, none, 1⟩ =
        CPU.execute c6s0 ⟨Opcode.Rshift, none, 1⟩)) ∧
    Word.ofNat (arshiftSpec (min (Word.ofNat 2 : Word).val 24) (Word.ofNat 8388624 : Word).val) =
      Word.ofNat 14680068 :=
  ⟨rfl, rfl,
   c6_arshift_semantics c6s0 1 (Word.ofNat 2) (Word.ofNat 8388624) c6s1 c6s2 rfl rfl,
   by decide⟩

lemma fromRng_fold (rng : Nat → Fin 256) :
    ∀ (l : List Nat) (m : Memory) (j : Nat),
      ((l.foldl (fun m i => m.writeByte i (rng i)) m).data j) =
        if j ∈ l then rng j else m.data j := by
  intro l
  induction l with
  | nil => intro m j; simp
  | cons a t ih =>
    intro m j
    rw [List.foldl_cons, ih]
    by_cases hj : j ∈ t
    · simp [hj, List.mem_cons]
    · by_cases ha : j = a
      · simp [hj, ha, Memory.writeByte]
      · simp [hj, ha, Memory.writeByte, List.mem_cons]

/-- C10 (confirmed): `Memory::from(rng)` fills only offsets 0 through 131070
from the byte source; the final byte at offset 131071 (address `0x1FFFF`) is
never written and stays 0, the zeroed default. -/
theorem c10_fromRng_last_byte_zero (rng : Nat → Fin 256) :
    (Memory.fromRng rng).data 131071 = 0 ∧
    ∀ i : Fin 131071, (Memory.fromRng rng).data i.val = rng i.val := by
  constructor
  · unfold Memory.fromRng
    rw [fromRng_fold]
    rw [if_neg (by
      intro hmem
      rw [List.mem_range] at hmem
      rw [show MEM_SIZE - 1 = 131071 from rfl] at hmem
      omega)]
    rfl
  · intro i
    unfold Memory.fromRng
    rw [fromRng_fold]
    rw [if_pos (by
      rw [List.mem_range]
      rw [show MEM_SIZE - 1 = 131071 from rfl]
      exact i.isLt)]

lemma renderFrom_preserve (body : Nat → Option Pixel) :
    ∀ (c i : Nat) (f f2 : Frame), renderFrom body i c f = some f2 →
      ∀ j, j < 4 * i → f2 j = f j := by
  intro c
  induction c with
  | zero =>
    intro i f f2 h j hj
    simp only [renderFrom] at h
    injection h with h
    rw [← h]
  | succ c ih =>
    intro i f f2 h j hj
    simp only [renderFrom] at h
    cases hb : body i with
    | none => rw [hb] at h; exact absurd h (by simp)
    | some p =>
      rw [hb] at h
      simp only [Option.some_bind] at h
      rw [ih (i + 1) _ _ h j (by omega)]
      simp [update4, show ¬ j = 4 * i from by omega, show ¬ j = 4 * i + 1 from by omega,
        show ¬ j = 4 * i + 2 from by omega, show ¬ j = 4 * i + 3 from by omega]

lemma renderFrom_alpha (body : Nat → Option Pixel)
    (hbody : ∀ j p, body j = some p → p.2.2.2 = 255) :
    ∀ (c i : Nat) (f f2 : Frame), renderFrom body i c f = some f2 →
      ∀ k, k < c → f2 (4 * (i + k) + 3) = 255 := by
  intro c
  induction c with
  | zero => intro i f f2 h k hk; exact absurd hk (Nat.not_lt_zero k)
  | succ c ih =>
    intro i f f2 h k hk
    simp only [renderFrom] at h
    cases hb : body i with
    | none => rw [hb] at h; exact absurd h (by simp)
    | some p =>
      rw [hb] at h
      simp only [Option.some_bind] at h
      cases k with
      | zero =>
        have hpres := renderFrom_preserve body c (i + 1) _ f2 h (4 * (i + 0) + 3) (by omega)
        rw [hpres, show 4 * (i + 0) + 3 = 4 * i + 3 from by omega]
        have hcond : ¬ (4 * i + 3 = 4 * i) ∧ ¬ (4 * i + 3 = 4 * i + 1) ∧
            ¬ (4 * i + 3 = 4 * i + 2) := by omega
        simp [update4, hcond.1, hcond.2.1, hcond.2.2]
        exact hbody i p hb
      | succ k =>
        rw [show 4 * (i + (k + 1)) + 3 = 4 * ((i + 1) + k) + 3 from by omega]
        exact ih (i + 1) _ _ h k (by omega)

lemma pixelDirectHighGfx_alpha (machine : Memory) (reg : DisplayRegisters) :
    ∀ j p, pixelDirectHighGfx machine reg j = some p → p.2.2.2 = 255 := by
  intro j p h
  simp only [pixelDirectHighGfx, Option.bind_eq_bind] at h
  rw [Option.bind_eq_some] at h
  obtain ⟨addr, -, h⟩ := h
  rw [Option.bind_eq_some] at h
  obtain ⟨vb, -, h⟩ := h
  simp only [Option.pure_def] at h
  injection h with h
  rw [← h]

lemma pixelPalettedHighGfx_alpha (machine : Memory) (reg : DisplayRegisters) :
    ∀ j p, pixelPalettedHighGfx machine reg j = some p → p.2.2.2 = 255 := by
  intro j p h
  simp only [pixelPalettedHighGfx, Option.bind_eq_bind] at h
  rw [Option.bind_eq_some] at h
  obtain ⟨addr, -, h⟩ := h
  rw [Option.bind_eq_some] at h
  obtain ⟨ci, -, h⟩ := h
  rw [Option.bind_eq_some] at h
  obtain ⟨color, -, h⟩ := h
  simp only [Option.pure_def] at h
  injection h with h
  rw [← h]

lemma pixelPalettedHighText_alpha (machine : Memory) (reg : DisplayRegisters) :
    ∀ j p, pixelPalettedHighText machine reg j = some p → p.2.2.2 = 255 := by
  intro j p h
  simp only [pixelPalettedHighText, Option.bind_eq_bind] at h
  rw [Option.bind_eq_some] at h
  obtain ⟨addr, -, h⟩ := h
  rw [Option.bind_eq_some] at h
  obtain ⟨ci, -, h⟩ := h
  rw [Option.bind_eq_some] at h
  obtain ⟨cb, -, h⟩ := h
  rw [Option.bind_eq_some] at h
  obtain ⟨col, -, h⟩ := h
  rw [Option.bind_eq_some] at h
  obtain ⟨fg, -, h⟩ := h
  rw [Option.bind_eq_some] at h
  obtain ⟨bg, -, h⟩ := h
  split at h <;> (simp only [Option.pure_def] at h; injection h with h; rw [← h])

lemma pixelDirectHighText_alpha (machine : Memory) (reg : DisplayRegisters) :
    ∀ j p, pixelDirectHighText machine reg j = some p → p.2.2.2 = 255 := by
  intro j p h
  simp only [pixelDirectHighText, Option.bind_eq_bind] at h
  rw [Option.bind_eq_some] at h
  obtain ⟨addr, -, h⟩ := h
  rw [Option.bind_eq_some] at h
  obtain ⟨ci, -, h⟩ := h
  rw [Option.bind_eq_some] at h
  obtain ⟨cb, -, h⟩ := h
  rw [Option.bind_eq_some] at h
  obtain ⟨col, -, h⟩ := h
  split at h <;> (simp only [Option.pure_def] at h; injection h with h; rw [← h])

lemma pixelDirectLowText_alpha (machine : Memory) (reg : DisplayRegisters) :
    ∀ j p, pixelDirectLowText machine reg j = some p → p.2.2.2 = 255 := by
  intro j p h
  simp only [pixelDirectLowText, Option.bind_eq_bind] at h
  rw [Option.bind_eq_some] at h
  obtain ⟨addr, -, h⟩ := h
  rw [Option.bind_eq_some] at h
  obtain ⟨ci, -, h⟩ := h
  rw [Option.bind_eq_some] at h
  obtain ⟨cb, -, h⟩ := h
  rw [Option.bind_eq_some] at h
  obtain ⟨col, -, h⟩ := h
  split at h <;> (simp only [Option.pure_def] at h; injection h with h; rw [← h])

lemma pixelPalettedLowText_alpha (machine : Memory) (reg : DisplayRegisters) :
    ∀ j p, pixelPalettedLowText machine reg j = some p → p.2.2.2 = 255 := by
  intro j p h
  simp only [pixelPalettedLowText, Option.bind_eq_bind] at h
  rw [Option.bind_eq_some] at h
  obtain ⟨addr, -, h⟩ := h
  rw [Option.bind_eq_some] at h
  obtain ⟨ci, -, h⟩ := h
  rw [Option.bind_eq_some] at h
  obtain ⟨cb, -, h⟩ := h
  rw [Option.bind_eq_some] at h
  obtain ⟨col, -, h⟩ := h
  rw [Option.bind_eq_some] at h
  obtain ⟨fg, -, h⟩ := h
  rw [Option.bind_eq_some] at h
  obtain ⟨bg, -, h⟩ := h
  split at h <;> (simp only [Option.pure_def] at h; injection h with h; rw [← h])

lemma pixelDirectLowGfx_alpha (machine : Memory) (reg : DisplayRegisters) :
    ∀ j p, pixelDirectLowGfx machine reg j = some p → p.2.2.2 = 255 := by
  intro j p h
  simp only [pixelDirectLowGfx, Option.bind_eq_bind] at h
  split at h
  · rw [Option.bind_eq_some] at h
    obtain ⟨addr, -, h⟩ := h
    rw [Option.bind_eq_some] at h
    obtain ⟨vb, -, h⟩ := h
    simp only [Option.pure_def] at h
    injection h with h
    rw [← h]
  · simp only [Option.pure_def] at h
    injection h with h
    rw [← h]

lemma pixelPalettedLowGfx_alpha (machine : Memory) (reg : DisplayRegisters) :
    ∀ j p, pixelPalettedLowGfx machine reg j = some p → p.2.2.2 = 255 := by
  intro j p h
  simp only [pixelPalettedLowGfx, Option.bind_eq_bind] at h
  split at h
  · rw [Option.bind_eq_some] at h
    obtain ⟨addr, -, h⟩ := h
    rw [Option.bind_eq_some] at h
    obtain ⟨ci, -, h⟩ := h
    rw [Option.bind_eq_some] at h
    obtain ⟨vb, -, h⟩ := h
    simp only [Option.pure_def] at h
    injection h with h
    rw [← h]
  · simp only [Option.pure_def] at h
    injection h with h
    rw [← h]

lemma draw_case_alpha {body : Nat → Option Pixel}
    (hbody : ∀ j p, body j = some p → p.2.2.2 = 255)
    {frame f2 : Frame} (hd : renderFrom body 0 307200 frame = some f2) (i : Fin 307200) :
    f2 (4 * i.val + 3) = 255 := by
  have h := renderFrom_alpha body hbody 307200 0 frame f2 hd i.val i.isLt
  rw [show 4 * (0 + i.val) + 3 = 4 * i.val + 3 from by omega] at h
  exact h

lemma renderFrom_none (body : Nat → Option Pixel) (i c : Nat) (f : Frame)
    (hb : body i = none) : renderFrom body i (c + 1) f = none := by
  simp only [renderFrom, hb, Option.none_bind]

/-- C9 (counterexample): on the all-zero machine the register block is zero,
mode 0 selects `draw_direct_low_text`, and the very first pixel evaluates
`row_offset % height` with `height = 0` — a panic (`none`), so no frame is
produced and no alpha byte is ever written. -/
theorem c9_draw_counterexample : draw Memory.default (fun _ => 0) = none := by
  have hreg : readDisplayRegisters Memory.default (Word.ofNat 16) = some c9regZero := rfl
  simp only [draw, Option.bind_eq_bind, hreg, Option.some_bind]
  rw [show (decide (0 < c9regZero.mode.val &&& 4)) = false from rfl,
    show (decide (0 < c9regZero.mode.val &&& 2)) = false from rfl,
    show (decide (0 < c9regZero.mode.val &&& 1)) = false from rfl]
  rw [show (307200 : Nat) = 307199 + 1 from rfl]
  exact renderFrom_none _ 0 307199 _ rfl

/-- C9 (amended): whenever `draw` completes without a fault (no out-of-range
peek and nonzero width/height where the mode divides by them), the alpha byte
of every one of the 307200 pixels of the produced frame equals `0xFF`, in
every one of the eight display modes.  (`c9_draw_nonvacuous` shows a machine
on which `draw` does complete.) -/
theorem c9_draw_alpha_ff (machine : Memory) (frame : Frame) (i : Fin 307200) :
    Option.elim (draw machine frame) True (fun f2 => f2 (4 * i.val + 3) = 255) := by
  cases hd : draw machine frame with
  | none => exact trivial
  | some f2 =>
    show f2 (4 * i.val + 3) = 255
    simp only [draw, Option.bind_eq_bind] at hd
    rw [Option.bind_eq_some] at hd
    obtain ⟨reg, -, hd⟩ := hd
    split at hd
    · exact draw_case_alpha (pixelPalettedHighGfx_alpha machine reg) hd i
    · exact draw_case_alpha (pixelDirectHighGfx_alpha machine reg) hd i
    · exact draw_case_alpha (pixelPalettedHighText_alpha machine reg) hd i
    · exact draw_case_alpha (pixelDirectHighText_alpha machine reg) hd i
    · exact draw_case_alpha (pixelDirectLowText_alpha machine reg) hd i
    · exact draw_case_alpha (pixelPalettedLowText_alpha machine reg) hd i
    · exact draw_case_alpha (pixelDirectLowGfx_alpha machine reg) hd i
    · exact draw_case_alpha (pixelPalettedLowGfx_alpha machine reg) hd i


lemma renderFrom_total (body : Nat → Option Pixel) :
    ∀ (c i : Nat) (f : Frame), (∀ j, i ≤ j → j < i + c → (body j).isSome) →
      (renderFrom body i c f).isSome := by
  intro c
  induction c with
  | zero => intro i f _; simp [renderFrom]
  | succ c ih =>
    intro i f h
    simp only [renderFrom]
    cases hb : body i with
    | none =>
      have hs := h i le_rfl (by omega)
      rw [hb] at hs
      exact absurd hs (by simp)
    | some p =>
      simp only [Option.some_bind]
      exact ih (i + 1) _ (fun j hj1 hj2 => h j (by omega) (by omega))

lemma toByteAddress_c9reg (x y : Word) : toByteAddress x y c9reg = some (Word.ofNat y.val) := by
  have h1 : Word.rem c9reg.row_offset c9reg.height = some (Word.ofNat 0) := rfl
  have h2 : Word.rem (Word.add x c9reg.col_offset) c9reg.width = some (Word.ofNat 0) := by
    simp only [Word.rem]
    rw [if_neg (by decide)]
    rw [show c9reg.width.val = 1 from rfl, Nat.mod_one]
  simp only [toByteAddress, Option.bind_eq_bind, h1, h2, Option.some_bind, Option.pure_def]
  congr 1
  apply Fin.ext
  simp only [Word.add, Word.mul, Word.ofNat_val, c9reg]
  have := y.isLt
  omega

lemma pixelDirectHighGfx_c9_some : ∀ j, j < 307200 → (pixelDirectHighGfx c9m c9reg j).isSome := by
  intro j hj
  have hy : (j / 640) >>> 2 < 120 := by
    rw [Nat.shiftRight_eq_div_pow]
    omega
  simp only [pixelDirectHighGfx, Option.bind_eq_bind, toByteAddress_c9reg, Option.some_bind]
  rw [Memory.peek_in _ _ (by rw [Word.ofNat_val, Word.ofNat_val]; omega)]
  simp

lemma draw_eq_highgfx (machine : Memory) (frame : Frame) (reg : DisplayRegisters)
    (hreg : readDisplayRegisters machine (Word.ofNat 16) = some reg)
    (h4 : decide (0 < reg.mode.val &&& 4) = false)
    (h2 : decide (0 < reg.mode.val &&& 2) = true)
    (h1 : decide (0 < reg.mode.val &&& 1) = true) :
    draw machine frame = renderFrom (pixelDirectHighGfx machine reg) 0 307200 frame := by
  simp only [draw, Option.bind_eq_bind, hreg, Option.some_bind, h4, h2, h1]

lemma c9_draw_nonvacuous : (draw c9m (fun _ => 0)).isSome := by
  rw [draw_eq_highgfx c9m (fun _ => 0) c9reg rfl rfl rfl rfl]
  exact renderFrom_total _ 307200 0 _ (fun j hj1 hj2 => pixelDirectHighGfx_c9_some j (by omega))
